import Mathlib

/-!
Shallow embedding of `stremio_to_m3u.py` (Stremio addon → M3U converter).

Modelling conventions, fixed once for the whole development:

* JSON values are the inductive `Json` below.  JSON numbers are modelled as
  integers (no claim involves fractional numbers).  Python dictionaries are
  association lists with pairwise-distinct keys in insertion order, so
  `dget` (first match) agrees with Python lookup.
* Python `dict.get(k)` returns `None` when absent; `dget` returns `Option Json`
  and `jgetD` is `dict.get(k, default)`.
* Python truthiness (`not data`, `if channel.logo:`, `x or y`) is `jtruthy` /
  `pyOr` on `Json` values.
* Fallible Python code (code that can raise `TypeError` / `AttributeError`)
  is embedded in `Except PyErr`.  Operations the interpreter performs on
  wrongly-shaped data are modelled with the error Python would raise at the
  same point; `try:`/`except:` blocks in the source become the surrounding
  `Option`/`Except` structure.
* The HTTP layer (`requests`) is an external collaborator (spec §1): it is an
  `Oracle` mapping request URLs to the decoded JSON result, `none` standing
  for any transport / status / decode failure (exactly what the `try` blocks
  of `fetch_catalog` / `fetch_stream` absorb, and what `main` catches for the
  manifest).
* `urllib.parse.urljoin` is likewise external: the URL builders take the join
  function as an explicit argument, and the theorems about them are proved
  for an arbitrary join.  The concrete `urljoin` below instantiates it for
  the call pattern the program uses (slash-terminated base, relative
  reference), where RFC 3986 resolution is plain concatenation.
* `urllib.parse.quote` / percent-decoding are modelled in full, including the
  UTF-8 encoding of the identifier.
* Python `str.upper` / `str.strip` are modelled on ASCII (`Char.toUpper`,
  ASCII whitespace); every string a claim exercises is ASCII-compatible
  there.
* String interpolation `f"{x}"` is Python `str(x)`, modelled by `pyStr`
  (its `repr` of nested containers does not escape quotes inside strings, a
  corner no claim reaches).
-/

/-- JSON values as decoded by `response.json()`. -/
inductive Json where
  | null
  | bool (b : Bool)
  | num (n : Int)
  | str (s : String)
  | arr (elems : List Json)
  | obj (fields : List (String × Json))

/-- A Python dictionary holding JSON values: association list, distinct keys,
insertion order. -/
abbrev Dict := List (String × Json)

/-- Python exceptions that the modelled code can raise. -/
inductive PyErr where
  | typeError
  | attributeError
deriving DecidableEq

/-- Python `d.get(k)` without a default: `some` value or `none`. -/
def dget (d : Dict) (k : String) : Option Json :=
  match d with
  | [] => none
  | (k1, v) :: rest => if k1 = k then some v else dget rest k

/-- Python `d.get(k, default)`. -/
def jgetD (d : Dict) (k : String) (dflt : Json) : Json :=
  match dget d k with
  | some v => v
  | none => dflt

/-- Python `k in d` for a dict. -/
def hasKey (d : Dict) (k : String) : Bool :=
  match dget d k with
  | some _ => true
  | none => false

/-- Python truthiness of a JSON value (`bool(x)`). -/
def jtruthy : Json → Bool
  | .null => false
  | .bool b => b
  | .num n => n != 0
  | .str s => !s.data.isEmpty
  | .arr xs => !xs.isEmpty
  | .obj fs => !fs.isEmpty

/-- Python `a or b` on JSON values: `a` when truthy, else `b`. -/
def pyOr (a b : Json) : Json :=
  if jtruthy a then a else b

/-- The string content of a JSON value when it is a string, `""` otherwise.
Used where the Python code is only ever reached with string values (sort
keys, substring matching); on non-strings Python would raise there, and the
theorems below restrict to string-valued fields wherever this matters. -/
def jstr : Json → String
  | .str s => s
  | _ => ""

/-- Test for a JSON object. -/
def isObj : Json → Bool
  | .obj _ => true
  | _ => false

/-- Test for a JSON string. -/
def isStr : Json → Bool
  | .str _ => true
  | _ => false

mutual

/-- Python `str(x)` of a JSON value (used by f-string interpolation). -/
def pyStr : Json → String
  | .null => "None"
  | .bool true => "True"
  | .bool false => "False"
  | .num n => toString n
  | .str s => s
  | .arr xs => "[" ++ pyReprList xs ++ "]"
  | .obj fs => "\x7b" ++ pyReprObj fs ++ "\x7d"

/-- Python `repr(x)` of a JSON value, as used inside container `str`. -/
def pyRepr : Json → String
  | .str s => "\x27" ++ s ++ "\x27"
  | j => pyStr j

/-- Comma-separated reprs of list elements. -/
def pyReprList : List Json → String
  | [] => ""
  | [j] => pyRepr j
  | j :: k :: rest => pyRepr j ++ ", " ++ pyReprList (k :: rest)

/-- Comma-separated `'key': repr` pairs of dict entries. -/
def pyReprObj : List (String × Json) → String
  | [] => ""
  | [(k, v)] => "\x27" ++ k ++ "\x27: " ++ pyRepr v
  | (k, v) :: p :: rest => "\x27" ++ k ++ "\x27: " ++ pyRepr v ++ ", " ++ pyReprObj (p :: rest)

end

/-- Python `needle.isPrefix-of haystack` on character lists. -/
def startsWithL : List Char → List Char → Bool
  | [], _ => true
  | _ :: _, [] => false
  | a :: as, b :: bs => a == b && startsWithL as bs

/-- Python substring test `needle in hay` on character lists. -/
def containsL (needle : List Char) : List Char → Bool
  | [] => needle.isEmpty
  | c :: rest => startsWithL needle (c :: rest) || containsL needle rest

/-- Python `needle in hay` for strings. -/
def strContains (hay needle : String) : Bool :=
  containsL needle.data hay.data

/-- Python ASCII whitespace stripped by `str.strip()` (the claims only use
ASCII; Python also strips other Unicode whitespace). -/
def isSpaceChar (c : Char) : Bool :=
  c == ' ' || c == '\t' || c == '\n' || c == '\r' || c == '\x0b' || c == '\x0c'

/-- Python `s.strip()` (ASCII whitespace). -/
def pyStrip (s : String) : String :=
  ⟨((s.data.dropWhile isSpaceChar).reverse.dropWhile isSpaceChar).reverse⟩

/-- Python `s.upper()` (ASCII; `Char.toUpper` is the identity beyond ASCII). -/
def pyUpper (s : String) : String :=
  ⟨s.data.map Char.toUpper⟩

/-- Helper for `pySplitComma`: accumulates the current piece reversed. -/
def splitCommaAux : List Char → List Char → List String
  | [], acc => [⟨acc.reverse⟩]
  | c :: rest, acc =>
    if c = ',' then ⟨acc.reverse⟩ :: splitCommaAux rest [] else splitCommaAux rest (c :: acc)

/-- Python `s.split(",")`: keeps empty pieces, `"" ↦ [""]`. -/
def pySplitComma (s : String) : List String :=
  splitCommaAux s.data []

/-- Python `base_url.rstrip("/")`: drop every trailing slash. -/
def rstripSlash (s : String) : String :=
  ⟨(s.data.reverse.dropWhile (fun c => c == '/')).reverse⟩

/-- Source `_normalize_base`: `base_url.rstrip("/") + "/"`. -/
def _normalize_base (base_url : String) : String :=
  rstripSlash base_url ++ "/"

/-- UTF-8 encoding of one character (1–4 bytes, as Nat values). -/
def utf8EncodeChar (c : Char) : List Nat :=
  let v := c.toNat
  if v < 128 then [v]
  else if v < 2048 then [192 + v / 64, 128 + v % 64]
  else if v < 65536 then [224 + v / 4096, 128 + v / 64 % 64, 128 + v % 64]
  else [240 + v / 262144, 128 + v / 4096 % 64, 128 + v / 64 % 64, 128 + v % 64]

/-- UTF-8 encoding of a character list (Python `s.encode("utf-8")`). -/
def encodeBytes : List Char → List Nat
  | [] => []
  | c :: rest => utf8EncodeChar c ++ encodeBytes rest

mutual

/-- UTF-8 decoding of a byte list; on malformed input it truncates (the
proofs only apply it to well-formed encodings).  The leading byte selects
the sequence length, the helpers consume the continuation bytes. -/
def utf8Decode : List Nat → List Char
  | [] => []
  | b0 :: rest =>
    if b0 < 128 then Char.ofNat b0 :: utf8Decode rest
    else if b0 < 224 then utf8DecodeTwo b0 rest
    else if b0 < 240 then utf8DecodeThree b0 rest
    else utf8DecodeFour b0 rest
termination_by l => 2 * l.length

/-- Continuation of a 2-byte UTF-8 sequence. -/
def utf8DecodeTwo (b0 : Nat) : List Nat → List Char
  | b1 :: r => Char.ofNat ((b0 - 192) * 64 + (b1 - 128)) :: utf8Decode r
  | [] => []
termination_by l => 2 * l.length + 1

/-- Continuation of a 3-byte UTF-8 sequence. -/
def utf8DecodeThree (b0 : Nat) : List Nat → List Char
  | b1 :: b2 :: r =>
    Char.ofNat ((b0 - 224) * 4096 + (b1 - 128) * 64 + (b2 - 128)) :: utf8Decode r
  | _ => []
termination_by l => 2 * l.length + 1

/-- Continuation of a 4-byte UTF-8 sequence. -/
def utf8DecodeFour (b0 : Nat) : List Nat → List Char
  | b1 :: b2 :: b3 :: r =>
    Char.ofNat ((b0 - 240) * 262144 + (b1 - 128) * 4096 + (b2 - 128) * 64 + (b3 - 128))
      :: utf8Decode r
  | _ => []
termination_by l => 2 * l.length + 1

end

/-- RFC 3986 unreserved bytes, the set `quote` never escapes
(`A–Z a–z 0–9 - . _ ~`). -/
def isUnreservedByte (b : Nat) : Bool :=
  (48 ≤ b && b ≤ 57) || (65 ≤ b && b ≤ 90) || (97 ≤ b && b ≤ 122) ||
    b == 45 || b == 46 || b == 95 || b == 126

/-- Uppercase hexadecimal digit of a value below 16 (as `quote` emits). -/
def hexUpper (n : Nat) : Char :=
  if n < 10 then Char.ofNat (48 + n) else Char.ofNat (55 + n)

/-- Percent-encode one byte given the `safe` set (Python keeps unreserved
bytes and ASCII bytes listed in `safe` literal). -/
def quoteByte (safe : String) (b : Nat) : List Char :=
  if isUnreservedByte b || safe.data.any (fun c => c.toNat == b && b < 128) then
    [Char.ofNat b]
  else
    ['%', hexUpper (b / 16), hexUpper (b % 16)]

/-- Percent-encode a byte list. -/
def quoteBytes (safe : String) : List Nat → List Char
  | [] => []
  | b :: bs => quoteByte safe b ++ quoteBytes safe bs

/-- Python `urllib.parse.quote(s, safe)`: UTF-8 encode, then percent-encode
every byte outside unreserved ∪ safe, uppercase hex. -/
def quote (s : String) (safe : String) : String :=
  ⟨quoteBytes safe (encodeBytes s.data)⟩

/-- Hexadecimal digit test (Python `unquote` accepts both cases). -/
def isHexDigitChar (c : Char) : Bool :=
  (48 ≤ c.toNat && c.toNat ≤ 57) || (65 ≤ c.toNat && c.toNat ≤ 70) ||
    (97 ≤ c.toNat && c.toNat ≤ 102)

/-- Value of a hexadecimal digit character. -/
def hexVal (c : Char) : Nat :=
  if c.toNat ≤ 57 then c.toNat - 48
  else if c.toNat ≤ 70 then c.toNat - 55
  else c.toNat - 87

/-- Percent-decoding to bytes: each valid `%XX` becomes one byte, every
other character contributes its UTF-8 bytes (Python `unquote` before the
final UTF-8 decode). -/
def unquoteBytes : List Char → List Nat
  | '%' :: a :: b :: r =>
    if isHexDigitChar a && isHexDigitChar b then
      (hexVal a * 16 + hexVal b) :: unquoteBytes r
    else
      utf8EncodeChar '%' ++ unquoteBytes (a :: b :: r)
  | c :: rest => utf8EncodeChar c ++ unquoteBytes rest
  | [] => []

/-- Python `urllib.parse.unquote(s)`: percent-decode, then UTF-8 decode. -/
def unquote (s : String) : String :=
  ⟨utf8Decode (unquoteBytes s.data)⟩

/-- Concrete model of `urllib.parse.urljoin` for the only call pattern the
program produces (base terminated by `/` from `_normalize_base`, reference a
relative path): RFC 3986 resolution is then concatenation.  Every theorem
about the URL builders is proved for an arbitrary join function, so nothing
below depends on this instantiation. -/
def urljoin (base ref : String) : String :=
  base ++ ref

/-- Source `build_manifest_url`, with the external join as an argument. -/
def build_manifest_url (join : String → String → String) (base_url : String) : String :=
  join (_normalize_base base_url) "manifest.json"

/-- Source `build_catalog_url`; `type` and `id` are interpolated by the
f-string, i.e. Python `str`. -/
def build_catalog_url (join : String → String → String) (base_url : String)
    (type id : Json) : String :=
  join (_normalize_base base_url) ("catalog/" ++ pyStr type ++ "/" ++ pyStr id ++ ".json")

/-- Source `build_stream_url`: `quote(id, safe="")` requires a string; on
any other value (including `None` from a missing key) Python `quote` raises
`TypeError`. -/
def build_stream_url (join : String → String → String) (base_url : String)
    (type id : Json) : Except PyErr String :=
  match id with
  | .str s =>
    .ok (join (_normalize_base base_url) ("stream/" ++ pyStr type ++ "/" ++ quote s "" ++ ".json"))
  | _ => .error .typeError

/-- Source `Config` (immutable, from environment). -/
structure Config where
  addon_url : String
  output_file : String
  quality_filter : String

/-- Source `CatalogRef`; field values come from JSON and are only strings on
well-shaped manifests, so they are kept as `Json`. -/
structure CatalogRef where
  type : Json
  id : Json
  name : Json

/-- Source `Manifest`. -/
structure Manifest where
  name : Json
  version : Json
  catalogs : List CatalogRef

/-- Source `StreamInfo`. -/
structure StreamInfo where
  url : Json
  name : Json
  title : Json

/-- Source `Channel`. -/
structure Channel where
  name : Json
  url : Json
  logo : Json
  group : Json

/-- One catalog entry of `parse_manifest`: `c.get(...)` on a non-dict raises
`AttributeError` (Python evaluates `c.get("id", "")` eagerly as the default
for `name`). -/
def catRefOfJson : Json → Except PyErr CatalogRef
  | .obj c =>
    .ok ⟨jgetD c "type" (.str ""), jgetD c "id" (.str ""),
      jgetD c "name" (jgetD c "id" (.str ""))⟩
  | _ => .error .attributeError

/-- Sequential elaboration of the catalog tuple, stopping at the first
raising entry exactly as the Python generator does. -/
def mapCatalogs : List Json → Except PyErr (List CatalogRef)
  | [] => .ok []
  | c :: rest => do
    let r ← catRefOfJson c
    let rs ← mapCatalogs rest
    .ok (r :: rs)

/-- Source `parse_manifest`.  `data.get("catalogs", ())` is iterated: a JSON
array iterates its elements; a string iterates its characters and a dict its
keys (each then raising `AttributeError` at `c.get` unless empty); any other
value raises `TypeError` (not iterable). -/
def parse_manifest (data : Dict) : Except PyErr Manifest := do
  let catalogs ←
    match jgetD data "catalogs" (Json.arr []) with
    | .arr cs => mapCatalogs cs
    | .str s => if s.data.isEmpty then .ok [] else .error .attributeError
    | .obj fs => if fs.isEmpty then .ok [] else .error .attributeError
    | _ => .error .typeError
  .ok ⟨jgetD data "name" (.str "Unknown"), jgetD data "version" (.str "?"), catalogs⟩

/-- The generator guard of `extract_stream_info`: Python `"url" in s or
"externalUrl" in s`.  For a dict this is a key test; for a string, substring
containment (a later `s.get` would raise, but a string entry that fails the
guard is skipped silently); for a list, membership; any other value raises
`TypeError`. -/
def entryHasUrlKey : Json → Except PyErr Bool
  | .obj fs => .ok (hasKey fs "url" || hasKey fs "externalUrl")
  | .str s => .ok (strContains s "url" || strContains s "externalUrl")
  | .arr xs =>
    .ok (xs.any (fun j => match j with | .str t => t == "url" | _ => false) ||
      xs.any (fun j => match j with | .str t => t == "externalUrl" | _ => false))
  | _ => .error .typeError

/-- The `StreamInfo` built from a qualifying entry: `s.get("url") or
s.get("externalUrl", "")`, with `name`/`title` defaulting to `""`.  A
non-dict qualifying entry raises `AttributeError` at `s.get`. -/
def entryInfo : Json → Except PyErr StreamInfo
  | .obj fs =>
    .ok ⟨pyOr (jgetD fs "url" .null) (jgetD fs "externalUrl" (.str "")),
      jgetD fs "name" (.str ""), jgetD fs "title" (.str "")⟩
  | _ => .error .attributeError

/-- The `next(...)` scan of `extract_stream_info`: first entry passing the
guard, or `none`. -/
def findStream : List Json → Except PyErr (Option StreamInfo)
  | [] => .ok none
  | e :: rest => do
    let q ← entryHasUrlKey e
    if q then
      let info ← entryInfo e
      .ok (some info)
    else
      findStream rest

/-- Source `extract_stream_info`.  `not data` is truthiness (`None` or the
empty dict); then `"streams" not in data`; then the scan over
`data["streams"]`.  Iterating a non-list `streams` value behaves as the
interpreter would: a string yields length-1 strings (which never contain
`"url"`, hence `none`), a dict yields its keys (raising `AttributeError` at
`s.get` if some key contains `"url"` as a substring), anything else raises
`TypeError`.  `streamsValueScan` is the dispatch on the `streams` value,
`extract_stream_info` the entry point. -/
def streamsValueScan : Option Json → Except PyErr (Option StreamInfo)
  | none => .ok none
  | some (.arr ss) => findStream ss
  | some (.str _) => .ok none
  | some (.obj fs) =>
    if fs.any (fun kv => strContains kv.1 "url" || strContains kv.1 "externalUrl") then
      .error .attributeError
    else
      .ok none
  | some _ => .error .typeError

def extract_stream_info (data : Option Dict) : Except PyErr (Option StreamInfo) :=
  match data with
  | none => .ok none
  | some d => if d.isEmpty then .ok none else streamsValueScan (dget d "streams")

/-- Source `meta_to_channel`. -/
def meta_to_channel (meta : Dict) (stream_info : StreamInfo) (group : Json) : Channel :=
  ⟨jgetD meta "name" (.str "No Name"), stream_info.url,
    jgetD meta "poster" (jgetD meta "logo" (.str "")), group⟩

/-- Source `format_channel_extinf`. -/
def format_channel_extinf (channel : Channel) : String :=
  let extinf := "#EXTINF:-1"
  let extinf :=
    if jtruthy channel.logo then extinf ++ " tvg-logo=\"" ++ pyStr channel.logo ++ "\""
    else extinf
  let extinf :=
    if jtruthy channel.group then extinf ++ " group-title=\"" ++ pyStr channel.group ++ "\""
    else extinf
  extinf ++ "," ++ pyStr channel.name

/-- Python `"\n".join(pieces)`. -/
def joinNl : List String → String
  | [] => ""
  | [x] => x
  | x :: y :: rest => x ++ "\n" ++ joinNl (y :: rest)

/-- Source `format_m3u`. -/
def format_m3u (channels : List Channel) (timestamp : String) : String :=
  let header :=
    "#EXTM3U\n# Automatically generated playlist\n# Updated at: " ++ timestamp ++
      " UTC\n# Total channels: " ++ toString channels.length ++ "\n"
  let body := joinNl (channels.map (fun ch => format_channel_extinf ch ++ "\n" ++ pyStr ch.url))
  if channels.isEmpty then header else header ++ "\n" ++ body ++ "\n"

/-- Python `m.get("name", "").upper()` for the quality filter; a non-string
name raises `AttributeError` at `.upper()`. -/
def metaNameUpper (m : Dict) : Except PyErr String :=
  match jgetD m "name" (.str "") with
  | .str s => .ok (pyUpper s)
  | _ => .error .attributeError

/-- The keyword list of `filter_metas_by_quality`:
`[k.strip().upper() for k in quality_filter.split(",") if k.strip()]`. -/
def qualityKeywords (quality_filter : String) : List String :=
  (pySplitComma quality_filter).filterMap
    (fun k => if (pyStrip k).data.isEmpty then none else some (pyUpper (pyStrip k)))

/-- The list comprehension of `filter_metas_by_quality`, left to right, first
raising item aborting (as in Python). -/
def filterQual (keywords : List String) : List Dict → Except PyErr (List Dict)
  | [] => .ok []
  | m :: ms => do
    let nm ← metaNameUpper m
    let rest ← filterQual keywords ms
    if keywords.any (fun kw => strContains nm kw) then .ok (m :: rest) else .ok rest

/-- Source `filter_metas_by_quality`. -/
def filter_metas_by_quality (metas : List Dict) (quality_filter : String) :
    Except PyErr (List Dict) :=
  if quality_filter.data.isEmpty then .ok metas
  else
    let keywords := qualityKeywords quality_filter
    if keywords.isEmpty then .ok metas
    else filterQual keywords metas

/-- Code-point lexicographic strict order on character lists: exactly how
Python compares the `str` sort keys in `resolved.sort(key=...)`. -/
def lexLt : List Char → List Char → Bool
  | _, [] => false
  | [], _ :: _ => true
  | a :: as, b :: bs =>
    if a.toNat < b.toNat then true
    else if b.toNat < a.toNat then false
    else lexLt as bs

/-- Sort key of `resolved.sort(key=lambda ch: ch.name)`.  Python would raise
comparing non-string names; the model keys non-strings as `""` and the
ordering theorems restrict to string names. -/
def nameKey (c : Channel) : String :=
  jstr c.name

/-- Boolean strict comparison of two channels by name key. -/
def chLtB (c d : Channel) : Bool :=
  lexLt (nameKey c).data (nameKey d).data

/-- Stable insertion into a sorted list: the new element (earlier in arrival
order) goes before every element of equal key, matching the stability of
Python's sort. -/
def insertChannel (c : Channel) : List Channel → List Channel
  | [] => [c]
  | d :: ds => if chLtB d c then d :: insertChannel c ds else c :: d :: ds

/-- Model of `resolved.sort(key=lambda ch: ch.name)`: a stable sort by name
key (Python's Timsort is stable; any stable sort computes the same list). -/
def sortChannelsByName (l : List Channel) : List Channel :=
  l.foldr insertChannel []

/-- Model of the `as_completed` drain of `resolve_catalog_channels` for one
completion order: the input list is the per-future outcome in completion
order, successes are appended in that order, then sorted by name.  The
claims about scheduling quantify over all permutations of this list. -/
def resolve_catalog_collect (arrivals : List (Option Channel)) : List Channel :=
  sortChannelsByName (arrivals.filterMap id)

/-- The external HTTP collaborator (spec §1): JSON results by request URL,
`none` for any transport / status / JSON-decode failure.  Payload types are
the endpoint shapes the program consumes; a response whose JSON cannot be
consumed at all (e.g. a non-dict manifest) is outside every claim. -/
structure Oracle where
  manifest : Option Dict
  catalog : String → Option (List Dict)
  stream : String → Option Dict

/-- Source `fetch_stream`: `build_stream_url` is evaluated BEFORE the
`try:` block, so a `TypeError` from `quote` (non-string `id`) escapes; the
`try` then absorbs every request failure into `None`. -/
def fetch_stream (o : Oracle) (base_url : String) (type id : Json) : Except PyErr (Option Dict) :=
  match build_stream_url urljoin base_url type id with
  | .ok url => .ok (o.stream url)
  | .error e => .error e

/-- Source `resolve_channel`. -/
def resolve_channel (o : Oracle) (base_url : String) (catalog_ref : CatalogRef)
    (meta : Dict) : Except PyErr (Option Channel) := do
  let stream_data ← fetch_stream o base_url catalog_ref.type (jgetD meta "id" .null)
  let stream_info ← extract_stream_info stream_data
  match stream_info with
  | none => .ok none
  | some si => .ok (some (meta_to_channel meta si catalog_ref.name))

/-- The `as_completed` drain: skip `None` results, re-raise the first
raising future (its exception escapes the loop). -/
def collect_arrivals : List (Except PyErr (Option Channel)) → Except PyErr (List Channel)
  | [] => .ok []
  | .error e :: _ => .error e
  | .ok none :: rest => collect_arrivals rest
  | .ok (some c) :: rest => do
    let cs ← collect_arrivals rest
    .ok (c :: cs)

/-- Source `resolve_catalog_channels`, with submission order as the canonical
completion schedule (the scheduling claims quantify over permutations via
`resolve_catalog_collect`).  A failed catalog fetch contributes no
channels. -/
def resolve_catalog_channels (o : Oracle) (base_url : String) (catalog_ref : CatalogRef)
    (quality_filter : String) : Except PyErr (List Channel) :=
  match o.catalog (build_catalog_url urljoin base_url catalog_ref.type catalog_ref.id) with
  | none => .ok []
  | some metas => do
    let filtered ← filter_metas_by_quality metas quality_filter
    let collected ← collect_arrivals (filtered.map (resolve_channel o base_url catalog_ref))
    .ok (sortChannelsByName collected)

/-- Sequential per-catalog resolution of `resolve_all_channels`. -/
def resolveCatalogList (o : Oracle) (base_url : String) (quality_filter : String) :
    List CatalogRef → Except PyErr (List Channel)
  | [] => .ok []
  | c :: rest => do
    let xs ← resolve_catalog_channels o base_url c quality_filter
    let ys ← resolveCatalogList o base_url quality_filter rest
    .ok (xs ++ ys)

/-- Source `resolve_all_channels`: concatenation over catalogs in manifest
order. -/
def resolve_all_channels (o : Oracle) (base_url : String) (manifest : Manifest)
    (quality_filter : String) : Except PyErr (List Channel) :=
  resolveCatalogList o base_url quality_filter manifest.catalogs

/-- Outcome of one run: process exit code, and the file write if it
happened. -/
structure RunResult where
  exitCode : Nat
  written : Option (String × String)

/-- Source `main` (renamed: `main` is reserved in Lean): manifest fetch
failure is caught and exits 1; a raising resolution escapes (Python exits 1
on an uncaught exception); zero resolved channels exits 1 before the write;
otherwise the playlist is formatted and written, exit 0. -/
def mainRun (o : Oracle) (config : Config) (timestamp : String) : RunResult :=
  match o.manifest with
  | none => ⟨1, none⟩
  | some raw =>
    match parse_manifest raw with
    | .error _ => ⟨1, none⟩
    | .ok manifest =>
      match resolve_all_channels o config.addon_url manifest config.quality_filter with
      | .error _ => ⟨1, none⟩
      | .ok [] => ⟨1, none⟩
      | .ok (c :: cs) =>
        ⟨0, some (config.output_file, format_m3u (c :: cs) timestamp)⟩

/-- Modelled from the spec (§4.2), for the refinement claim about
`extract_stream_info`: scan the stream array in order and return the first
entry possessing a `url` field (preferred) or an `externalUrl` field
(fallback), carrying through optional `name`/`title`; no qualifying entry
means no stream. -/
def specScanStreams : List Json → Option StreamInfo
  | [] => none
  | e :: rest =>
    match e with
    | .obj fs =>
      if hasKey fs "url" || hasKey fs "externalUrl" then
        some ⟨pyOr (jgetD fs "url" .null) (jgetD fs "externalUrl" (.str "")),
          jgetD fs "name" (.str ""), jgetD fs "title" (.str "")⟩
      else specScanStreams rest
    | _ => specScanStreams rest

/-- Modelled from the spec (§4.3): the trimmed, non-empty keywords of the
comma-separated filter string (not yet uppercased — case-insensitivity is
applied at match time). -/
def specKeywords (quality_filter : String) : List String :=
  (pySplitComma quality_filter).filterMap
    (fun k => if (pyStrip k).data.isEmpty then none else some (pyStrip k))

/-- Modelled from the spec (§4.3), for the refinement claim about
`filter_metas_by_quality`: keep an item iff its name contains, case
insensitively, at least one trimmed non-empty keyword; an empty keyword list
keeps everything. -/
def specFilterKeeps (quality_filter : String) (m : Dict) : Bool :=
  (specKeywords quality_filter).isEmpty ||
    (specKeywords quality_filter).any
      (fun kw => strContains (pyUpper (jstr (jgetD m "name" (.str "")))) (pyUpper kw))

/-- Modelled from the spec (§4.2), for the refinement claim about
`parse_manifest`: one catalog entry, `type`/`id` defaulting to `""` and
`name` defaulting to the entry's `id` (itself defaulting to `""`).  Only
applied to objects; the catch-all keeps the function total. -/
def specCatRef (e : Json) : CatalogRef :=
  match e with
  | .obj c =>
    ⟨jgetD c "type" (.str ""), jgetD c "id" (.str ""),
      jgetD c "name" (jgetD c "id" (.str ""))⟩
  | _ => ⟨.null, .null, .null⟩

/-- Shape test for C6: the `catalogs` value, when present, is an array of
objects. -/
def catalogsShapeOk (data : Dict) : Bool :=
  match dget data "catalogs" with
  | none => true
  | some (.arr cs) => cs.all isObj
  | some _ => false

/-- Value test for C1: the field `k`, when present, holds a non-empty
string. -/
def urlFieldOk (fs : Dict) (k : String) : Bool :=
  match dget fs k with
  | none => true
  | some (.str s) => !s.data.isEmpty
  | some _ => false

/-- Shape test for C1: a stream entry is an object whose `url` and
`externalUrl` fields, when present, are non-empty strings. -/
def goodEntry : Json → Bool
  | .obj fs => urlFieldOk fs "url" && urlFieldOk fs "externalUrl"
  | _ => false

/-- Two channels sharing the display name `"A"` but with different URLs:
the C2 counterexample input. -/
def chanDupA1 : Channel :=
  ⟨.str "A", .str "http://u1", .str "", .str "G"⟩

/-- Second channel named `"A"` (different URL). -/
def chanDupA2 : Channel :=
  ⟨.str "A", .str "http://u2", .str "", .str "G"⟩

theorem rstripSlash_append (s : String) : rstripSlash (s ++ "/") = rstripSlash s := by
  obtain ⟨l⟩ := s
  show rstripSlash ⟨l ++ ['/']⟩ = rstripSlash ⟨l⟩
  unfold rstripSlash
  simp [List.dropWhile]

theorem normalize_base_append (base : String) :
    _normalize_base (base ++ "/") = _normalize_base base := by
  unfold _normalize_base
  rw [rstripSlash_append]

/-- C7: for every join function, base URL, type and id, each of the three
URL builders gives the same result on `base` and on `base ++ "/"` — the
trailing-slash normalization makes them insensitive to a trailing slash. -/
theorem c7_trailing_slash_idempotent (join : String → String → String) (base : String)
    (t i : Json) :
    build_manifest_url join (base ++ "/") = build_manifest_url join base ∧
    build_catalog_url join (base ++ "/") t i = build_catalog_url join base t i ∧
    build_stream_url join (base ++ "/") t i = build_stream_url join base t i := by
  refine ⟨?_, ?_, ?_⟩ <;>
    simp only [build_manifest_url, build_catalog_url, build_stream_url, normalize_base_append]

/-- C9: formatting the empty channel list yields exactly the four-line
header — `#EXTM3U`, the generation notice, the timestamp comment and a
channel count of 0 — and nothing else (four newline-terminated lines
whenever the timestamp itself has no newline). -/
theorem c9_format_empty (ts : String) :
    format_m3u [] ts =
      "#EXTM3U\n# Automatically generated playlist\n# Updated at: " ++ ts ++
        " UTC\n# Total channels: 0\n" ∧
    (ts.data.count '\n' = 0 → (format_m3u [] ts).data.count '\n' = 4) := by
  have h : format_m3u [] ts =
      "#EXTM3U\n# Automatically generated playlist\n# Updated at: " ++ ts ++
        " UTC\n# Total channels: 0\n" := by
    show ("#EXTM3U\n# Automatically generated playlist\n# Updated at: " ++ ts ++
        " UTC\n# Total channels: " ++ toString (0 : Nat) ++ "\n") = _
    apply String.ext
    simp only [String.data_append, List.append_assoc, List.append_cancel_left_eq]
    decide
  refine ⟨h, fun hts => ?_⟩
  rw [h, String.data_append, String.data_append, List.count_append, List.count_append, hts]
  decide

theorem char_toNat_lt (c : Char) : c.toNat < 1114112 := by
  rcases c.valid with h | h
  · exact Nat.lt_trans h (by decide)
  · exact h.2

theorem char_toNat_ofNat (n : Nat) (h : n < 55296) : (Char.ofNat n).toNat = n := by
  unfold Char.ofNat
  rw [dif_pos (Or.inl h)]
  rfl

theorem utf8EncodeChar_lt (c : Char) : ∀ b ∈ utf8EncodeChar c, b < 256 := by
  have hv := char_toNat_lt c
  intro b hb
  simp only [utf8EncodeChar] at hb
  by_cases h1 : c.toNat < 128
  · rw [if_pos h1] at hb
    simp only [List.mem_singleton] at hb
    omega
  · rw [if_neg h1] at hb
    by_cases h2 : c.toNat < 2048
    · rw [if_pos h2] at hb
      simp only [List.mem_cons, List.not_mem_nil, or_false] at hb
      rcases hb with h | h <;> omega
    · rw [if_neg h2] at hb
      by_cases h3 : c.toNat < 65536
      · rw [if_pos h3] at hb
        simp only [List.mem_cons, List.not_mem_nil, or_false] at hb
        rcases hb with h | h | h <;> omega
      · rw [if_neg h3] at hb
        simp only [List.mem_cons, List.not_mem_nil, or_false] at hb
        rcases hb with h | h | h | h <;> omega

theorem utf8Decode_encode (c : Char) (bs : List Nat) :
    utf8Decode (utf8EncodeChar c ++ bs) = c :: utf8Decode bs := by
  have hvlt : c.toNat < 1114112 := char_toNat_lt c
  simp only [utf8EncodeChar]
  by_cases h1 : c.toNat < 128
  · rw [if_pos h1]
    show utf8Decode (c.toNat :: bs) = c :: utf8Decode bs
    simp only [utf8Decode]
    rw [if_pos h1, Char.ofNat_toNat]
  · by_cases h2 : c.toNat < 2048
    · rw [if_neg h1, if_pos h2]
      show utf8Decode ((192 + c.toNat / 64) :: (128 + c.toNat % 64) :: bs) = c :: utf8Decode bs
      have g1 : ¬(192 + c.toNat / 64 < 128) := by omega
      have g2 : 192 + c.toNat / 64 < 224 := by omega
      simp only [utf8Decode]
      rw [if_neg g1, if_pos g2]
      simp only [utf8DecodeTwo]
      rw [show (192 + c.toNat / 64 - 192) * 64 + (128 + c.toNat % 64 - 128) = c.toNat by omega,
        Char.ofNat_toNat]
    · by_cases h3 : c.toNat < 65536
      · rw [if_neg h1, if_neg h2, if_pos h3]
        show utf8Decode ((224 + c.toNat / 4096) :: (128 + c.toNat / 64 % 64) ::
          (128 + c.toNat % 64) :: bs) = c :: utf8Decode bs
        have g1 : ¬(224 + c.toNat / 4096 < 128) := by omega
        have g2 : ¬(224 + c.toNat / 4096 < 224) := by omega
        have g3 : 224 + c.toNat / 4096 < 240 := by omega
        simp only [utf8Decode]
        rw [if_neg g1, if_neg g2, if_pos g3]
        simp only [utf8DecodeThree]
        rw [show (224 + c.toNat / 4096 - 224) * 4096 + (128 + c.toNat / 64 % 64 - 128) * 64 +
          (128 + c.toNat % 64 - 128) = c.toNat by omega, Char.ofNat_toNat]
      · rw [if_neg h1, if_neg h2, if_neg h3]
        show utf8Decode ((240 + c.toNat / 262144) :: (128 + c.toNat / 4096 % 64) ::
          (128 + c.toNat / 64 % 64) :: (128 + c.toNat % 64) :: bs) = c :: utf8Decode bs
        have g1 : ¬(240 + c.toNat / 262144 < 128) := by omega
        have g2 : ¬(240 + c.toNat / 262144 < 224) := by omega
        have g3 : ¬(240 + c.toNat / 262144 < 240) := by omega
        simp only [utf8Decode]
        rw [if_neg g1, if_neg g2, if_neg g3]
        simp only [utf8DecodeFour]
        rw [show (240 + c.toNat / 262144 - 240) * 262144 + (128 + c.toNat / 4096 % 64 - 128) * 4096 +
          (128 + c.toNat / 64 % 64 - 128) * 64 + (128 + c.toNat % 64 - 128) = c.toNat by omega,
          Char.ofNat_toNat]

theorem utf8Decode_encodeBytes (l : List Char) : utf8Decode (encodeBytes l) = l := by
  induction l with
  | nil =>
    show utf8Decode [] = []
    simp only [utf8Decode]
  | cons c rest ih =>
    show utf8Decode (utf8EncodeChar c ++ encodeBytes rest) = c :: rest
    rw [utf8Decode_encode, ih]

theorem encodeBytes_lt (l : List Char) : ∀ b ∈ encodeBytes l, b < 256 := by
  induction l with
  | nil => intro b hb; simp [encodeBytes] at hb
  | cons c rest ih =>
    intro b hb
    simp only [encodeBytes, List.mem_append] at hb
    rcases hb with h | h
    · exact utf8EncodeChar_lt c b h
    · exact ih b h

theorem unreserved_bounds (b : Nat) (h : isUnreservedByte b = true) : b < 128 ∧ b ≠ 37 := by
  simp only [isUnreservedByte, Bool.or_eq_true, Bool.and_eq_true, decide_eq_true_eq,
    beq_iff_eq] at h
  rcases h with ⟨h1, h2⟩ | ⟨h1, h2⟩ | ⟨h1, h2⟩ | h | h | h | h <;> omega

theorem hexUpper_spec (n : Nat) (h : n < 16) :
    isHexDigitChar (hexUpper n) = true ∧ hexVal (hexUpper n) = n := by
  interval_cases n <;> exact ⟨by decide, by decide⟩

theorem unquoteBytes_cons_non_pct (c : Char) (rest : List Char) (h : c ≠ '%') :
    unquoteBytes (c :: rest) = utf8EncodeChar c ++ unquoteBytes rest := by
  rw [unquoteBytes.eq_def]
  split
  · rename_i heq
    injection heq with hc _
    exact absurd hc h
  · rename_i heq
    injection heq with hc hr
    rw [hc, hr]
  · rename_i heq
    exact absurd heq (List.cons_ne_nil c rest)

theorem unquote_quoteBytes (bs : List Nat) (hb : ∀ b ∈ bs, b < 256) :
    unquoteBytes (quoteBytes "" bs) = bs := by
  induction bs with
  | nil => rfl
  | cons b rest ih =>
    have hb0 : b < 256 := hb b (List.mem_cons_self b rest)
    have ihr := ih (fun x hx => hb x (List.mem_cons_of_mem b hx))
    show unquoteBytes (quoteByte "" b ++ quoteBytes "" rest) = b :: rest
    by_cases hu : isUnreservedByte b = true
    · have hsafe : ("".data.any (fun c => c.toNat == b && b < 128)) = false := rfl
      obtain ⟨hb128, hb37⟩ := unreserved_bounds b hu
      have hq : quoteByte "" b = [Char.ofNat b] := by
        simp only [quoteByte, hu, Bool.true_or, if_pos]
      rw [hq, List.cons_append, List.nil_append]
      have hcn : (Char.ofNat b).toNat = b := char_toNat_ofNat b (by omega)
      have hne : Char.ofNat b ≠ '%' := by
        intro he
        apply hb37
        rw [← hcn, he]
        rfl
      rw [unquoteBytes_cons_non_pct _ _ hne, ihr]
      have henc : utf8EncodeChar (Char.ofNat b) = [b] := by
        simp only [utf8EncodeChar, hcn, if_pos hb128]
      rw [henc]
      rfl
    · have hq : quoteByte "" b = ['%', hexUpper (b / 16), hexUpper (b % 16)] := by
        simp only [quoteByte]
        rw [if_neg]
        simp only [hu, Bool.false_or]
        exact fun hc => by simp at hc
      rw [hq]
      show unquoteBytes ('%' :: hexUpper (b / 16) :: hexUpper (b % 16) :: quoteBytes "" rest) =
        b :: rest
      obtain ⟨hhex1, hval1⟩ := hexUpper_spec (b / 16) (by omega)
      obtain ⟨hhex2, hval2⟩ := hexUpper_spec (b % 16) (by omega)
      simp only [unquoteBytes, hhex1, hhex2, Bool.and_self, if_pos, hval1, hval2]
      rw [show b / 16 * 16 + b % 16 = b by omega, ihr]

/-- C8: percent-decoding inverts the percent-encoding that `build_stream_url`
embeds in the path: `unquote (quote id "") = id` for every identifier,
including ones with `/`, `:`, spaces and arbitrary Unicode; and the encoded
segment inside the built stream URL is exactly `quote id ""`. -/
theorem c8_quote_roundtrip (id : String) (join : String → String → String) (base : String)
    (t : Json) :
    unquote (quote id "") = id ∧
    build_stream_url join base t (.str id) =
      .ok (join (_normalize_base base)
        ("stream/" ++ pyStr t ++ "/" ++ quote id "" ++ ".json")) := by
  constructor
  · obtain ⟨l⟩ := id
    show unquote ⟨quoteBytes "" (encodeBytes l)⟩ = ⟨l⟩
    unfold unquote
    show (⟨utf8Decode (unquoteBytes (quoteBytes "" (encodeBytes l)))⟩ : String) = ⟨l⟩
    rw [unquote_quoteBytes _ (encodeBytes_lt l), utf8Decode_encodeBytes]
  · rfl

theorem char_eq_of_toNat_eq (a b : Char) (h : a.toNat = b.toNat) : a = b := by
  obtain ⟨av, ap⟩ := a
  obtain ⟨bv, bp⟩ := b
  have hv : av = bv := UInt32.ext h
  subst hv
  rfl

theorem lexLt_nil_right (a : List Char) : lexLt a [] = false := by
  cases a <;> rfl

theorem lexLt_asymm (a b : List Char) (h : lexLt a b = true) : lexLt b a = false := by
  induction a generalizing b with
  | nil =>
    cases b with
    | nil => simp [lexLt] at h
    | cons y ys => exact lexLt_nil_right (y :: ys)
  | cons x xs ih =>
    cases b with
    | nil => rw [lexLt_nil_right] at h; exact absurd h (by simp)
    | cons y ys =>
      simp only [lexLt] at h ⊢
      by_cases h1 : x.toNat < y.toNat
      · rw [if_neg (by omega : ¬ y.toNat < x.toNat), if_pos h1]
      · rw [if_neg h1] at h
        by_cases h2 : y.toNat < x.toNat
        · rw [if_pos h2] at h; exact absurd h (by simp)
        · rw [if_neg h2] at h
          rw [if_neg h2, if_neg h1]
          exact ih ys h

theorem lexLt_eq_of_not (a b : List Char) (h1 : lexLt a b = false) (h2 : lexLt b a = false) :
    a = b := by
  induction a generalizing b with
  | nil =>
    cases b with
    | nil => rfl
    | cons y ys => simp [lexLt] at h1
  | cons x xs ih =>
    cases b with
    | nil => simp [lexLt] at h2
    | cons y ys =>
      simp only [lexLt] at h1 h2
      by_cases hxy : x.toNat < y.toNat
      · rw [if_pos hxy] at h1; exact absurd h1 (by simp)
      · by_cases hyx : y.toNat < x.toNat
        · rw [if_pos hyx] at h2; exact absurd h2 (by simp)
        · rw [if_neg hxy, if_neg hyx] at h1
          rw [if_neg hyx, if_neg hxy] at h2
          rw [char_eq_of_toNat_eq x y (by omega), ih ys h1 h2]

theorem lexLt_negtrans (a b c : List Char) (h1 : lexLt b a = false) (h2 : lexLt c b = false) :
    lexLt c a = false := by
  induction a generalizing b c with
  | nil => exact lexLt_nil_right c
  | cons x xs ih =>
    cases b with
    | nil => simp [lexLt] at h1
    | cons y ys =>
      cases c with
      | nil => simp [lexLt] at h2
      | cons z zs =>
        simp only [lexLt] at h1 h2 ⊢
        by_cases hyx : y.toNat < x.toNat
        · rw [if_pos hyx] at h1; exact absurd h1 (by simp)
        · by_cases hzy : z.toNat < y.toNat
          · rw [if_pos hzy] at h2; exact absurd h2 (by simp)
          · rw [if_neg hyx] at h1
            rw [if_neg hzy] at h2
            by_cases hzx : z.toNat < x.toNat
            · omega
            · rw [if_neg hzx]
              by_cases hxz : x.toNat < z.toNat
              · rw [if_pos hxz]
              · rw [if_neg hxz]
                by_cases hxy : x.toNat < y.toNat
                · omega
                · rw [if_neg hxy] at h1
                  by_cases hyz : y.toNat < z.toNat
                  · omega
                  · rw [if_neg hyz] at h2
                    exact ih ys zs h1 h2

theorem insertChannel_perm (c : Channel) (l : List Channel) :
    (insertChannel c l).Perm (c :: l) := by
  induction l with
  | nil => exact List.Perm.refl _
  | cons d ds ih =>
    simp only [insertChannel]
    by_cases h : chLtB d c = true
    · rw [if_pos h]
      exact (ih.cons d).trans (List.Perm.swap c d ds)
    · rw [if_neg h]

theorem insertChannel_sorted (c : Channel) (l : List Channel)
    (h : l.Pairwise (fun a b => chLtB b a = false)) :
    (insertChannel c l).Pairwise (fun a b => chLtB b a = false) := by
  induction l with
  | nil => simp [insertChannel]
  | cons d ds ih =>
    rcases List.pairwise_cons.mp h with ⟨hd, hds⟩
    simp only [insertChannel]
    by_cases hlt : chLtB d c = true
    · rw [if_pos hlt]
      apply List.pairwise_cons.mpr
      refine ⟨?_, ih hds⟩
      intro x hx
      rcases List.mem_cons.mp ((insertChannel_perm c ds).mem_iff.mp hx) with hxc | hxds
      · rw [hxc]
        exact lexLt_asymm _ _ hlt
      · exact hd x hxds
    · rw [if_neg hlt]
      apply List.pairwise_cons.mpr
      refine ⟨?_, List.pairwise_cons.mpr ⟨hd, hds⟩⟩
      intro x hx
      rcases List.mem_cons.mp hx with hxd | hxds
      · rw [hxd]
        exact (Bool.not_eq_true _).mp hlt
      · exact lexLt_negtrans _ _ _ ((Bool.not_eq_true _).mp hlt) (hd x hxds)

theorem sortChannelsByName_perm (l : List Channel) : (sortChannelsByName l).Perm l := by
  induction l with
  | nil => exact List.Perm.refl _
  | cons c cs ih =>
    show (insertChannel c (sortChannelsByName cs)).Perm (c :: cs)
    exact (insertChannel_perm c _).trans (ih.cons c)

theorem sortChannelsByName_sorted (l : List Channel) :
    (sortChannelsByName l).Pairwise (fun a b => chLtB b a = false) := by
  induction l with
  | nil => exact List.Pairwise.nil
  | cons c cs ih => exact insertChannel_sorted c _ ih

theorem sortChannels_sorted_strict (l : List Channel) (hn : (l.map nameKey).Nodup) :
    (sortChannelsByName l).Pairwise (fun a b => chLtB a b = true) := by
  have h1 := sortChannelsByName_sorted l
  have hperm : ((sortChannelsByName l).map nameKey).Perm (l.map nameKey) :=
    (sortChannelsByName_perm l).map nameKey
  have hn2 : ((sortChannelsByName l).map nameKey).Nodup := hn.perm hperm.symm
  have hne : (sortChannelsByName l).Pairwise (fun a b => nameKey a ≠ nameKey b) :=
    List.pairwise_map.mp hn2
  refine (h1.and hne).imp ?_
  intro a b hab
  obtain ⟨hba, hneq⟩ := hab
  by_cases hx : chLtB a b = true
  · exact hx
  · exfalso
    apply hneq
    apply String.ext
    exact lexLt_eq_of_not _ _ ((Bool.not_eq_true _).mp hx) hba

theorem sortChannels_eq_of_perm (l1 l2 : List Channel) (hp : l1.Perm l2)
    (hn : (l1.map nameKey).Nodup) : sortChannelsByName l1 = sortChannelsByName l2 := by
  letI : IsAntisymm Channel (fun a b => chLtB a b = true) :=
    ⟨fun a b h1 h2 => absurd h2 (by simp [show chLtB b a = false from lexLt_asymm _ _ h1])⟩
  have hn2 : (l2.map nameKey).Nodup := hn.perm (hp.map nameKey)
  exact List.eq_of_perm_of_sorted
    ((sortChannelsByName_perm l1).trans (hp.trans (sortChannelsByName_perm l2).symm))
    (sortChannels_sorted_strict l1 hn) (sortChannels_sorted_strict l2 hn2)

/-- C2 counterexample: the claim fails as stated.  Two items resolving to
channels that share the display name `"A"` but have different URLs give
different output tuples under two completion orders of the same per-item
results (the sort is stable, so equal names keep completion order): the
output is not a function of the multiset of completions. -/
theorem c2_counterexample :
    ([some chanDupA2, some chanDupA1] : List (Option Channel)).Perm
      [some chanDupA1, some chanDupA2] ∧
    resolve_catalog_collect [some chanDupA1, some chanDupA2] = [chanDupA1, chanDupA2] ∧
    resolve_catalog_collect [some chanDupA2, some chanDupA1] = [chanDupA2, chanDupA1] ∧
    chanDupA1 ≠ chanDupA2 := by
  refine ⟨List.Perm.swap _ _ _, rfl, rfl, ?_⟩
  intro h
  have hu : chanDupA1.url = chanDupA2.url := congrArg Channel.url h
  simp only [chanDupA1, chanDupA2, Json.str.injEq] at hu
  exact absurd hu (by decide)

/-- C2 (amended): for every pair of completion orders that are permutations
of the same per-item outcomes, the collected result is the same list —
provided the resolved channels carry pairwise-distinct display names — and
it is always sorted by name (no element is strictly greater than a later
one).  Without the distinctness proviso only the multiset is deterministic:
the stable sort keeps completion order among equal names
(`c2_counterexample`). -/
theorem c2_deterministic_sorted (a1 a2 : List (Option Channel)) (hp : a1.Perm a2)
    (hn : ((a1.filterMap id).map nameKey).Nodup) :
    resolve_catalog_collect a1 = resolve_catalog_collect a2 ∧
    (resolve_catalog_collect a1).Pairwise (fun c d => chLtB d c = false) := by
  constructor
  · exact sortChannels_eq_of_perm _ _ (hp.filterMap id) hn
  · exact sortChannelsByName_sorted _

/-- C2 witness: the amended theorem applied to a concrete pair of completion
orders of the same outcomes (one failed item, one resolved channel). -/
theorem c2_deterministic_sorted_witness :
    resolve_catalog_collect [some chanDupA1, none] =
      resolve_catalog_collect [none, some chanDupA1] ∧
    (resolve_catalog_collect [some chanDupA1, none]).Pairwise
      (fun c d => chLtB d c = false) :=
  c2_deterministic_sorted [some chanDupA1, none] [none, some chanDupA1]
    (List.Perm.swap none (some chanDupA1) []) (by decide)

/-- C9 witness: the four-line count at a concrete timestamp. -/
theorem c9_format_empty_witness :
    (format_m3u [] "2025-01-01 00:00:00").data.count '\n' = 4 :=
  (c9_format_empty "2025-01-01 00:00:00").2 (by decide)

theorem exceptBind_ok {α β : Type} (a : α) (f : α → Except PyErr β) :
    (Except.ok a >>= f) = f a := rfl

theorem dget_some_ne_nil (d : Dict) (k : String) (v : Json) (h : dget d k = some v) :
    d.isEmpty = false := by
  cases d with
  | nil => simp [dget] at h
  | cons p rest => rfl

theorem findStream_objs (ss : List Json) (h : ss.all isObj = true) :
    findStream ss = .ok (specScanStreams ss) := by
  induction ss with
  | nil => rfl
  | cons e rest ih =>
    simp only [List.all_cons, Bool.and_eq_true] at h
    obtain ⟨he, hrest⟩ := h
    have hobj : ∃ fs, e = .obj fs := by
      cases e <;> simp_all [isObj]
    obtain ⟨fs, rfl⟩ := hobj
    simp only [findStream, specScanStreams, entryHasUrlKey, entryInfo, exceptBind_ok]
    by_cases hq : (hasKey fs "url" || hasKey fs "externalUrl") = true
    · rw [if_pos hq, if_pos hq]
    · rw [if_neg hq, if_neg hq]
      exact ih hrest

/-- C3: `extract_stream_info` yields no stream for a missing payload and for
a payload without a `streams` key; on an array of object entries it returns
exactly the spec-side scan — the first entry in array order possessing a
`url` or `externalUrl` key, URL preferring `url` over `externalUrl`,
carrying `name`/`title` through with empty defaults; the scan of the empty
array is `none`; and on the spec's example the result URL is
`"http://a"`. -/
theorem c3_extract_stream_info :
    extract_stream_info none = .ok none ∧
    (∀ d : Dict, hasKey d "streams" = false → extract_stream_info (some d) = .ok none) ∧
    (∀ (d : Dict) (ss : List Json), dget d "streams" = some (.arr ss) → ss.all isObj = true →
      extract_stream_info (some d) = .ok (specScanStreams ss)) ∧
    specScanStreams ([] : List Json) = none ∧
    extract_stream_info (some [("streams",
      Json.arr [Json.obj [("externalUrl", Json.str "http://a")],
        Json.obj [("url", Json.str "http://b")]])]) =
      .ok (some ⟨Json.str "http://a", Json.str "", Json.str ""⟩) := by
  refine ⟨rfl, ?_, ?_, rfl, rfl⟩
  · intro d h
    have hdg : dget d "streams" = none := by
      cases hx : dget d "streams" with
      | none => rfl
      | some v => unfold hasKey at h; rw [hx] at h; simp at h
    show (if d.isEmpty = true then Except.ok none else streamsValueScan (dget d "streams")) =
      Except.ok none
    rw [hdg]
    by_cases hemp : d.isEmpty = true
    · rw [if_pos hemp]
    · rw [if_neg hemp]; rfl
  · intro d ss hdg hobj
    have hne : d.isEmpty = false := dget_some_ne_nil d "streams" _ hdg
    show (if d.isEmpty = true then Except.ok none else streamsValueScan (dget d "streams")) =
      Except.ok (specScanStreams ss)
    rw [hdg, hne]
    show findStream ss = Except.ok (specScanStreams ss)
    exact findStream_objs ss hobj

/-- C3 witness: the hypothesised parts of the theorem applied to concrete
payloads (no `streams` key; a `streams` array whose only entry qualifies
with neither `url` nor `externalUrl`). -/
theorem c3_extract_stream_info_witness :
    extract_stream_info (some [("other", Json.num 1)]) = .ok none ∧
    extract_stream_info (some [("streams", Json.arr [Json.obj [("title", Json.str "x")]])]) =
      .ok none :=
  ⟨c3_extract_stream_info.2.1 [("other", Json.num 1)] rfl,
    c3_extract_stream_info.2.2.1 [("streams", Json.arr [Json.obj [("title", Json.str "x")]])]
      [Json.obj [("title", Json.str "x")]] rfl rfl⟩

/-- C1 counterexample: the claim fails as stated.  A stream entry whose
`url` key holds the empty string passes the `"url" in s` guard, and
`s.get("url") or s.get("externalUrl", "")` then yields `""`: resolution
returns a stream, and the Channel built from it has the empty string as its
URL. -/
theorem c1_counterexample :
    extract_stream_info (some [("streams", Json.arr [Json.obj [("url", Json.str "")]])]) =
      .ok (some ⟨Json.str "", Json.str "", Json.str ""⟩) ∧
    (meta_to_channel [] ⟨Json.str "", Json.str "", Json.str ""⟩ (Json.str "TV")).url =
      Json.str "" :=
  ⟨rfl, rfl⟩

theorem hasKey_true_dget (d : Dict) (k : String) (h : hasKey d k = true) :
    ∃ v, dget d k = some v := by
  cases hx : dget d k with
  | none => unfold hasKey at h; rw [hx] at h; simp at h
  | some v => exact ⟨v, rfl⟩

theorem hasKey_false_dget (d : Dict) (k : String) (h : hasKey d k = false) :
    dget d k = none := by
  cases hx : dget d k with
  | none => rfl
  | some v => unfold hasKey at h; rw [hx] at h; simp at h

theorem urlFieldOk_some (fs : Dict) (k : String) (v : Json) (hok : urlFieldOk fs k = true)
    (hv : dget fs k = some v) : ∃ s : String, v = .str s ∧ s ≠ "" := by
  unfold urlFieldOk at hok
  rw [hv] at hok
  cases v with
  | str s =>
    refine ⟨s, rfl, ?_⟩
    intro hs
    subst hs
    simp at hok
  | null => simp at hok
  | bool b => simp at hok
  | num n => simp at hok
  | arr xs => simp at hok
  | obj fs2 => simp at hok

theorem str_ne_empty_data (s : String) (h : s ≠ "") : s.data.isEmpty = false := by
  obtain ⟨l⟩ := s
  cases l with
  | nil => exact absurd rfl h
  | cons c cs => rfl

theorem findStream_good_url (ss : List Json) (si : StreamInfo) (hgood : ss.all goodEntry = true)
    (h : findStream ss = .ok (some si)) : ∃ s : String, si.url = .str s ∧ s ≠ "" := by
  induction ss with
  | nil => exact absurd h (by simp [findStream])
  | cons e rest ih =>
    simp only [List.all_cons, Bool.and_eq_true] at hgood
    obtain ⟨hge, hgrest⟩ := hgood
    have hobj : ∃ fs, e = .obj fs := by cases e <;> simp_all [goodEntry]
    obtain ⟨fs, rfl⟩ := hobj
    simp only [goodEntry, Bool.and_eq_true] at hge
    obtain ⟨hu, he⟩ := hge
    simp only [findStream, entryHasUrlKey, entryInfo, exceptBind_ok] at h
    by_cases hq : (hasKey fs "url" || hasKey fs "externalUrl") = true
    · rw [if_pos hq] at h
      have hsi : si = ⟨pyOr (jgetD fs "url" .null) (jgetD fs "externalUrl" (.str "")),
          jgetD fs "name" (.str ""), jgetD fs "title" (.str "")⟩ := by
        simp only [Except.ok.injEq, Option.some.injEq] at h
        exact h.symm
      cases hku : hasKey fs "url" with
      | true =>
        obtain ⟨v, hv⟩ := hasKey_true_dget fs "url" hku
        obtain ⟨s, rfl, hsne⟩ := urlFieldOk_some fs "url" v hu hv
        refine ⟨s, ?_, hsne⟩
        rw [hsi]
        show pyOr (jgetD fs "url" .null) (jgetD fs "externalUrl" (.str "")) = .str s
        rw [show jgetD fs "url" Json.null = Json.str s from by unfold jgetD; rw [hv]]
        unfold pyOr
        rw [if_pos (show jtruthy (Json.str s) = true from by
          show (!s.data.isEmpty) = true
          rw [str_ne_empty_data s hsne]
          rfl)]
      | false =>
        have hvn : dget fs "url" = none := hasKey_false_dget fs "url" hku
        have hke : hasKey fs "externalUrl" = true := by
          rw [hku] at hq
          simpa using hq
        obtain ⟨v, hv⟩ := hasKey_true_dget fs "externalUrl" hke
        obtain ⟨s, rfl, hsne⟩ := urlFieldOk_some fs "externalUrl" v he hv
        refine ⟨s, ?_, hsne⟩
        rw [hsi]
        show pyOr (jgetD fs "url" .null) (jgetD fs "externalUrl" (.str "")) = .str s
        rw [show jgetD fs "url" Json.null = Json.null from by unfold jgetD; rw [hvn],
          show jgetD fs "externalUrl" (Json.str "") = Json.str s from by unfold jgetD; rw [hv]]
        rfl
    · rw [if_neg hq] at h
      exact ih hgrest h

/-- C1 (amended): whenever every stream entry is an object whose `url` and
`externalUrl` values, when present, are non-empty strings, any `StreamInfo`
that resolution extracts carries a non-empty string URL, and the Channel
built from it by `meta_to_channel` has exactly that non-empty URL.  (The
unamended claim fails on an entry carrying an empty-string `url`:
`c1_counterexample`.) -/
theorem c1_channel_url_nonempty (d : Dict) (ss : List Json) (si : StreamInfo) (meta : Dict)
    (g : Json) (hdg : dget d "streams" = some (.arr ss)) (hgood : ss.all goodEntry = true)
    (hex : extract_stream_info (some d) = .ok (some si)) :
    ∃ s : String, si.url = .str s ∧ s ≠ "" ∧ (meta_to_channel meta si g).url = .str s := by
  have hne : d.isEmpty = false := dget_some_ne_nil d "streams" _ hdg
  have hfs : findStream ss = .ok (some si) := by
    rw [show extract_stream_info (some d) =
      (if d.isEmpty = true then Except.ok none else streamsValueScan (dget d "streams")) from rfl,
      hdg, hne] at hex
    exact hex
  obtain ⟨s, hs1, hs2⟩ := findStream_good_url ss si hgood hfs
  refine ⟨s, hs1, hs2, ?_⟩
  rw [show (meta_to_channel meta si g).url = si.url from rfl, hs1]

/-- C1 witness: the amended theorem at a concrete payload with a non-empty
`url` value. -/
theorem c1_channel_url_nonempty_witness :
    ∃ s : String, (⟨Json.str "http://u", Json.str "", Json.str ""⟩ : StreamInfo).url = .str s ∧
      s ≠ "" ∧ (meta_to_channel [] ⟨Json.str "http://u", Json.str "", Json.str ""⟩
        (Json.str "G")).url = .str s :=
  c1_channel_url_nonempty [("streams", Json.arr [Json.obj [("url", Json.str "http://u")]])]
    [Json.obj [("url", Json.str "http://u")]] ⟨Json.str "http://u", Json.str "", Json.str ""⟩
    [] (Json.str "G") rfl rfl rfl

theorem qualityKeywords_map (qf : String) :
    qualityKeywords qf = (specKeywords qf).map pyUpper := by
  unfold qualityKeywords specKeywords
  induction pySplitComma qf with
  | nil => rfl
  | cons k ks ih =>
    simp only [List.filterMap_cons]
    by_cases hc : (pyStrip k).data.isEmpty = true
    · rw [if_pos hc, if_pos hc]
      exact ih
    · rw [if_neg hc, if_neg hc]
      simp only [List.map_cons]
      rw [ih]

theorem filterQual_ok (keywords : List String) (metas : List Dict)
    (hn : metas.all (fun m => isStr (jgetD m "name" (.str ""))) = true) :
    filterQual keywords metas =
      .ok (metas.filter (fun m => keywords.any (fun kw =>
        strContains (pyUpper (jstr (jgetD m "name" (.str "")))) kw))) := by
  induction metas with
  | nil => rfl
  | cons m ms ih =>
    simp only [List.all_cons, Bool.and_eq_true] at hn
    obtain ⟨hm, hms⟩ := hn
    have hstr : ∃ s, jgetD m "name" (.str "") = .str s := by
      cases hx : jgetD m "name" (.str "") <;> simp_all [isStr]
    obtain ⟨s, hs⟩ := hstr
    simp only [filterQual]
    rw [show metaNameUpper m = .ok (pyUpper s) from by unfold metaNameUpper; rw [hs],
      exceptBind_ok, ih hms, exceptBind_ok]
    simp only [List.filter_cons, hs]
    rw [show jstr (Json.str s) = s from rfl]
    by_cases hc : keywords.any (fun kw => strContains (pyUpper s) kw) = true
    · rw [if_pos hc, if_pos hc]
    · rw [if_neg hc, if_neg hc]

/-- C4: the quality filter is a no-op whenever every comma token of the
filter string is blank after trimming (in particular for the empty string);
otherwise, for items whose `name` fields are strings, it keeps exactly the
items whose name contains, case-insensitively, at least one trimmed keyword
(OR semantics), preserving order — i.e. it equals `List.filter` with the
spec-side predicate. -/
theorem c4_filter_by_quality (metas : List Dict) (qf : String) :
    ((pySplitComma qf).all (fun k => (pyStrip k).data.isEmpty) = true →
      filter_metas_by_quality metas qf = .ok metas) ∧
    (metas.all (fun m => isStr (jgetD m "name" (.str ""))) = true →
      filter_metas_by_quality metas qf = .ok (metas.filter (specFilterKeeps qf))) := by
  have hred : filter_metas_by_quality metas qf =
      if qf.data.isEmpty = true then .ok metas
      else if (qualityKeywords qf).isEmpty = true then .ok metas
      else filterQual (qualityKeywords qf) metas := rfl
  constructor
  · intro hall
    rw [hred]
    by_cases hqf : qf.data.isEmpty = true
    · rw [if_pos hqf]
    · rw [if_neg hqf]
      have hkw : qualityKeywords qf = [] := by
        unfold qualityKeywords
        rw [List.filterMap_eq_nil_iff]
        intro k hk
        rw [if_pos (List.all_eq_true.mp hall k hk)]
      rw [hkw]
      rfl
  · intro hn
    rw [hred]
    by_cases hqf : qf.data.isEmpty = true
    · rw [if_pos hqf]
      have hsplit : pySplitComma qf = [""] := by
        unfold pySplitComma
        rw [List.isEmpty_iff.mp hqf]
        rfl
      have hfk : ∀ m ∈ metas, specFilterKeeps qf m = true := by
        intro m _
        unfold specFilterKeeps specKeywords
        rw [hsplit]
        rfl
      rw [List.filter_eq_self.mpr hfk]
    · rw [if_neg hqf]
      by_cases hkw : (qualityKeywords qf).isEmpty = true
      · rw [if_pos hkw]
        have hspec : specKeywords qf = [] := by
          have := qualityKeywords_map qf
          rw [List.isEmpty_iff.mp hkw] at this
          exact (List.map_eq_nil_iff.mp this.symm)
        have hfk : ∀ m ∈ metas, specFilterKeeps qf m = true := by
          intro m _
          unfold specFilterKeeps
          rw [hspec]
          rfl
        rw [List.filter_eq_self.mpr hfk]
      · rw [if_neg hkw, filterQual_ok _ _ hn]
        have hspec : (specKeywords qf).isEmpty = false := by
          cases hx : (specKeywords qf).isEmpty with
          | false => rfl
          | true =>
            exfalso
            apply absurd hkw
            simp only [qualityKeywords_map, List.isEmpty_iff.mp hx, List.map_nil]
            simp
        congr 1
        apply List.filter_congr
        intro m _
        unfold specFilterKeeps
        rw [hspec]
        simp only [Bool.false_or]
        rw [qualityKeywords_map, List.any_map]
        rfl

/-- C4 witness: the theorem at the spec's own examples — the empty filter is
a pass-through, and the `"1080"` filter keeps only `"Movie 1080p"`. -/
theorem c4_filter_by_quality_witness :
    filter_metas_by_quality
      [[("name", Json.str "Movie 1080p")], [("name", Json.str "Movie 720p")]] "" =
      .ok [[("name", Json.str "Movie 1080p")], [("name", Json.str "Movie 720p")]] ∧
    filter_metas_by_quality
      [[("name", Json.str "Movie 1080p")], [("name", Json.str "Movie 720p")]] "1080" =
      .ok [[("name", Json.str "Movie 1080p")]] :=
  ⟨(c4_filter_by_quality
      [[("name", Json.str "Movie 1080p")], [("name", Json.str "Movie 720p")]] "").1 (by decide),
    (c4_filter_by_quality
      [[("name", Json.str "Movie 1080p")], [("name", Json.str "Movie 720p")]] "1080").2
      (by decide)⟩

/-- C6 counterexample: the claim fails as stated.  On the JSON object
`{"catalogs": 5}` the generator `tuple(... for c in data.get("catalogs", ()))`
iterates a non-iterable and raises `TypeError`: `parse_manifest` does not
degrade this input to defaults. -/
theorem c6_counterexample :
    parse_manifest [("catalogs", Json.num 5)] = .error .typeError :=
  rfl

theorem mapCatalogs_objs (xs : List Json) (h : xs.all isObj = true) :
    mapCatalogs xs = .ok (xs.map specCatRef) := by
  induction xs with
  | nil => rfl
  | cons e rest ih =>
    simp only [List.all_cons, Bool.and_eq_true] at h
    obtain ⟨he, hrest⟩ := h
    have hobj : ∃ fs, e = .obj fs := by cases e <;> simp_all [isObj]
    obtain ⟨fs, rfl⟩ := hobj
    simp only [mapCatalogs, catRefOfJson, exceptBind_ok]
    rw [ih hrest, exceptBind_ok]
    rfl

/-- C6 (amended): `parse_manifest` never fails on a JSON object whose
`catalogs` value, when present, is an array of objects: the addon name
defaults to `"Unknown"`, the version to `"?"`, a missing `catalogs` array to
the empty sequence, and each entry's `type`/`id` default to `""` with `name`
defaulting to the entry's `id`, source order preserved (the result is the
entry-wise `specCatRef` map).  On other objects it can raise
(`c6_counterexample`). -/
theorem c6_parse_manifest_defaults (data : Dict) (hshape : catalogsShapeOk data = true) :
    ∃ m : Manifest, parse_manifest data = .ok m ∧
      m.name = jgetD data "name" (.str "Unknown") ∧
      m.version = jgetD data "version" (.str "?") ∧
      (dget data "catalogs" = none → m.catalogs = []) ∧
      (∀ xs, dget data "catalogs" = some (.arr xs) → m.catalogs = xs.map specCatRef) := by
  unfold catalogsShapeOk at hshape
  cases hx : dget data "catalogs" with
  | none =>
    rw [hx] at hshape
    refine ⟨⟨jgetD data "name" (.str "Unknown"), jgetD data "version" (.str "?"), []⟩,
      ?_, rfl, rfl, fun _ => rfl, ?_⟩
    · unfold parse_manifest
      rw [show jgetD data "catalogs" (Json.arr []) = Json.arr [] from by unfold jgetD; rw [hx]]
      rfl
    · intro xs hxs
      exact Option.noConfusion hxs
  | some v =>
    rw [hx] at hshape
    cases v with
    | arr xs =>
      refine ⟨⟨jgetD data "name" (.str "Unknown"), jgetD data "version" (.str "?"),
        xs.map specCatRef⟩, ?_, rfl, rfl, ?_, ?_⟩
      · unfold parse_manifest
        rw [show jgetD data "catalogs" (Json.arr []) = Json.arr xs from by unfold jgetD; rw [hx]]
        show mapCatalogs xs >>= (fun catalogs => Except.ok (Manifest.mk
            (jgetD data "name" (.str "Unknown")) (jgetD data "version" (.str "?")) catalogs)) =
          Except.ok (Manifest.mk (jgetD data "name" (.str "Unknown"))
            (jgetD data "version" (.str "?")) (xs.map specCatRef))
        rw [mapCatalogs_objs xs hshape, exceptBind_ok]
      · intro h
        exact Option.noConfusion h
      · intro ys hys
        injection hys with h1
        injection h1 with h2
        rw [h2]
    | null => simp at hshape
    | bool b => simp at hshape
    | num n => simp at hshape
    | str s => simp at hshape
    | obj fs => simp at hshape

/-- C6 witness: the amended theorem at a concrete object without a
`catalogs` key. -/
theorem c6_parse_manifest_defaults_witness :
    ∃ m : Manifest, parse_manifest [("name", Json.str "My Addon")] = .ok m ∧
      m.name = jgetD [("name", Json.str "My Addon")] "name" (.str "Unknown") ∧
      m.version = jgetD [("name", Json.str "My Addon")] "version" (.str "?") ∧
      (dget [("name", Json.str "My Addon")] "catalogs" = none → m.catalogs = []) ∧
      (∀ xs, dget [("name", Json.str "My Addon")] "catalogs" = some (.arr xs) →
        m.catalogs = xs.map specCatRef) :=
  c6_parse_manifest_defaults [("name", Json.str "My Addon")] rfl

/-- C5: whenever resolution succeeds with zero channels across all catalogs,
the run exits with a nonzero status and nothing is ever written — the
file-write step is unreachable on this path. -/
theorem c5_zero_channels_aborts (o : Oracle) (config : Config) (ts : String) (raw : Dict)
    (man : Manifest) (h1 : o.manifest = some raw) (h2 : parse_manifest raw = .ok man)
    (h3 : resolve_all_channels o config.addon_url man config.quality_filter = .ok []) :
    (mainRun o config ts).exitCode ≠ 0 ∧ (mainRun o config ts).written = none := by
  have hrun : mainRun o config ts = ⟨1, none⟩ := by
    simp only [mainRun, h1, h2, h3]
  rw [hrun]
  exact ⟨by decide, rfl⟩

/-- C5 witness: a run whose manifest parses but yields no catalogs, hence
zero channels. -/
theorem c5_zero_channels_aborts_witness :
    (mainRun ⟨some [], fun _ => none, fun _ => none⟩
      ⟨"http://addon", "playlist.m3u", ""⟩ "ts").exitCode ≠ 0 ∧
    (mainRun ⟨some [], fun _ => none, fun _ => none⟩
      ⟨"http://addon", "playlist.m3u", ""⟩ "ts").written = none :=
  c5_zero_channels_aborts ⟨some [], fun _ => none, fun _ => none⟩
    ⟨"http://addon", "playlist.m3u", ""⟩ "ts" [] ⟨Json.str "Unknown", Json.str "?", []⟩
    rfl rfl rfl

/-- C10: an item without an `id` key is not skipped silently —
`resolve_channel` raises.  `meta.get("id")` gives `None`, and
`build_stream_url` (evaluated before the `try` of `fetch_stream`) passes it
to `quote`, which raises `TypeError`; the item-scoped absorption only covers
the request itself. -/
theorem c10_missing_id_raises (o : Oracle) (base : String) (cref : CatalogRef) (meta : Dict)
    (h : hasKey meta "id" = false) :
    resolve_channel o base cref meta = .error .typeError := by
  have hd : dget meta "id" = none := hasKey_false_dget meta "id" h
  unfold resolve_channel
  rw [show jgetD meta "id" Json.null = Json.null from by unfold jgetD; rw [hd]]
  rfl

/-- C10 witness: a concrete `id`-less item under a concrete oracle. -/
theorem c10_missing_id_raises_witness :
    resolve_channel ⟨none, fun _ => none, fun _ => none⟩ "http://addon"
      ⟨Json.str "tv", Json.str "cat", Json.str "TV"⟩ [("name", Json.str "Item")] =
      .error .typeError :=
  c10_missing_id_raises ⟨none, fun _ => none, fun _ => none⟩ "http://addon"
    ⟨Json.str "tv", Json.str "cat", Json.str "TV"⟩ [("name", Json.str "Item")] rfl
